import Mathlib

/-!
# A verification development for `GotDownloader.download` (src/src/GotDownloader.ts)

This file gives a shallow embedding of the `download` method of the
`GotDownloader` class and proves properties of it.

Modelling decisions:

* The asynchronous behaviour of one `download` call is modelled as a trace of
  external events (`Event`): transfer-progress events, a transport-stream
  error, a sink-stream error, the sink-stream `close` signal, and a firing of
  the armed `setTimeout`.  The registered handlers of the source are embedded
  as the state-transition function `applyEvent`; `download` folds the trace
  over the state produced by the synchronous prefix of the method
  (`fs.mkdirp`, `fs.createWriteStream`, the `setTimeout` arming, and
  `got.stream`).
* The code after `await new Promise(...)` runs as a microtask as soon as the
  promise is fulfilled, before any later macrotask (in particular before any
  later timer firing); `stepEvent` therefore applies that continuation at the
  event that fulfils the promise.  When the promise is rejected, the `await`
  throws, so the continuation never runs — faithful to the source, where
  `downloadCompleted = true` and `clearTimeout` are only reached on
  fulfilment.
* JavaScript numbers are idealised: the two operands of
  `progress.transferred / progress.total` are nonnegative integers, so the
  only values the percent computation can take are nonnegative finite
  numbers, `NaN` (from `0 / 0`) and `Infinity` (from `t / 0` with `t > 0`),
  captured by `JSNum`.  For a nonzero total the exact rounded percent is
  computed over `ℕ`; the lemma `calculatedPercent_eq_round` checks this
  against Mathlib's `round` on `ℚ`.
* External collaborators are modelled by their documented behaviour: a Node
  stream that emitted `error` is destroyed (`autoDestroy`); `got` destroys
  its stream when it emits `error`; `pipe` ends the destination after the
  source has ended (so a natural `close` of the sink implies the transport
  stream has completed), but a destination error only unpipes — it does not
  destroy the source.  The `downloadProgress` listener is an `async`
  function whose returned promise is ignored by the event emitter, so a
  rejection inside it (a failing `getProgressCallback`) is an unhandled
  rejection: it neither rejects the surrounding promise nor destroys any
  stream.  Invocations of the callback are recorded in the ghost field
  `callbackCalls`.
* `process.env.ELECTRON_GET_NO_PROGRESS` and `options.quiet` enter the model
  as the booleans `envNoProgress` and `quiet` (their JavaScript truthiness).
-/

deriving instance DecidableEq for Except

namespace GotDownloader

/-- `const PROGRESS_BAR_DELAY_IN_SECONDS = 30` — the fixed activation delay. -/
def PROGRESS_BAR_DELAY_IN_SECONDS : ℕ := 30

/-- The values the expression
`Math.round((progress.transferred / progress.total) * 100)` can take on
nonnegative integer operands: a nonnegative finite number, `NaN` or
`Infinity`. -/
inductive JSNum
  | num (n : ℕ)
  | nan
  | inf
deriving DecidableEq

/-- `Math.round((progress.transferred / progress.total) * 100)` as computed in
the `downloadProgress` handler.  In JavaScript `0 / 0` is `NaN` and `t / 0`
is `Infinity` for `t > 0`; `Math.round` is the identity on both.  For
`total ≠ 0` the value is `⌊transferred / total * 100 + 1/2⌋`, computed here
over `ℕ` as `(200 * transferred + total) / (2 * total)`; the lemma
`calculatedPercent_eq_round` proves this equal to Mathlib's `round` of the
exact rational. -/
def calculatedPercent (transferred total : ℕ) : JSNum :=
  if total = 0 then
    (if transferred = 0 then JSNum.nan else JSNum.inf)
  else
    JSNum.num ((200 * transferred + total) / (2 * total))

/-- The error object emitted by the `got` download stream: whether it is an
`HTTPError`, its `response.statusCode`, its `response.url` (the resolved URL
of the response, which differs from the requested URL when the transport
followed a redirect), and its `message`. -/
structure TransportError where
  isHTTPError : Bool
  statusCode : ℕ
  responseUrl : String
  message : String
deriving DecidableEq

/-- The 404 enrichment in the transport-stream error handler: when the error
is an `HTTPError` and `error.response.statusCode === 404`, the string
" for " followed by `error.response.url` is appended to `error.message`. -/
def enrich404 (e : TransportError) : TransportError :=
  if e.isHTTPError && e.statusCode == 404 then
    { e with message := e.message ++ " for " ++ e.responseUrl }
  else e

/-- The errors with which the promise inside `download` can be rejected, and
the error thrown by `fs.mkdirp`, tagged by origin. -/
inductive Err
  | transport (e : TransportError)
  | sink (message : String)
  | mkdirp (message : String)
deriving DecidableEq

/-- Lifecycle state of a Node stream as far as the downloader observes it. -/
inductive StreamState
  | notCreated
  | opened
  | destroyed (err : Option Err)
  | closed
deriving DecidableEq

/-- A stream is closed in the sense of the specification (destroyed or
completed) when it is `destroyed` or `closed`. -/
def StreamState.isClosed : StreamState → Bool
  | StreamState.destroyed _ => true
  | StreamState.closed => true
  | _ => false

/-- The `ProgressBar` constructed in the timer callback, as far as the source
configures it: `curr` is the value passed in the options object, `total` is
`100`, and `start` is the `Date` assigned by `(bar as any).start = start`.
`curr : Option JSNum` because the source seeds it with the variable
`progressPercent`, which may be `undefined` (`none`). -/
structure ProgressBar where
  curr : Option JSNum
  total : ℕ
  start : ℕ
deriving DecidableEq

/-- The synchronous setup actions of `download`, in execution order (ghost
log used to state ordering properties). -/
inductive SetupAction
  | mkdirpDone
  | createWriteStream
  | armTimer
  | openTransport
deriving DecidableEq

/-- The mutable state of one `download` call.  The fields mirror the local
variables of the source (`downloadCompleted`, `bar`, `progressPercent`, the
`timeout` handle, the `start` date, the two streams, the promise
settlement); `barUpdates`, `callbackCalls`, `writeCreates`, `readCreates`
and `setupLog` are ghost fields recording observable interactions.

`progressPercent` is declared in the source (`let progressPercent: number;`)
and read when constructing the `ProgressBar`, but no statement of the source
ever assigns it; accordingly no transition of this model writes the field,
and it stays `none` (JavaScript `undefined`). -/
structure DState where
  downloadCompleted : Bool := false
  progressPercent : Option JSNum := none
  bar : Option ProgressBar := none
  barUpdates : List JSNum := []
  timeoutArmed : Bool := false
  timeoutFired : Bool := false
  timeoutCancelled : Bool := false
  start : ℕ := 0
  writeStream : StreamState := StreamState.notCreated
  downloadStream : StreamState := StreamState.notCreated
  settled : Option (Except Err Unit) := none
  callbackCalls : List ((ℕ × ℕ) × Except String Unit) := []
  writeCreates : ℕ := 0
  readCreates : ℕ := 0
  setupLog : List SetupAction := []
deriving DecidableEq

/-- The initial state of a call, before anything has run. -/
def initState : DState := {}

/-- Settlement of the promise: `resolve`/`reject` are no-ops once the promise
is settled. -/
def settleWith (s : DState) (r : Except Err Unit) : DState :=
  if s.settled.isSome then s else { s with settled := some r }

/-- The external events one `download` call can receive while the promise is
pending: a `downloadProgress` event carrying `(transferred, total)`, an
`error` of the `got` stream, an `error` of the write stream, the `close` of
the write stream, and a firing of the armed timer (carrying the wall-clock
time at which it fires; the source never reads that time). -/
inductive Event
  | progress (transferred total : ℕ)
  | transportError (e : TransportError)
  | sinkError (message : String)
  | sinkClose
  | timerFire (now : ℕ)

/-- The event handlers registered by `download`, as one transition function.

* `progress`: the `downloadProgress` listener computes `calculatedPercent`,
  calls `bar.update(calculatedPercent)` when `bar` exists (recorded in
  `barUpdates`), and awaits `getProgressCallback(progress)` when configured
  (recorded with its result in `callbackCalls`).  The listener is `async`
  and its returned promise is ignored by the emitter, so a failing callback
  settles nothing and touches no stream.
* `transportError`: the `error` listener of the `got` stream enriches a 404
  `HTTPError` with `error.response.url`, destroys the write stream with the
  error (`writeStream.destroy` always exists on an `fs` write stream), and
  rejects.  The `got` stream itself is destroyed, having emitted `error`.
* `sinkError`: the `error` listener of the write stream only rejects; the
  errored write stream is destroyed by its own `autoDestroy`, while the
  transport stream is merely unpiped by `pipe`'s error handling, so its
  state is unchanged.
* `sinkClose`: the `close` listener resolves.  When the close is the natural
  completion of a pipe whose source has ended (the write stream was still
  `opened`), the transport stream has completed; a `close` following a
  `destroy` keeps the destroyed state.
* `timerFire`: a one-shot timer runs only if armed, not yet fired and not
  cleared; the callback body checks `if (!downloadCompleted)` and then
  constructs the `ProgressBar` with `curr: progressPercent`, `total: 100`
  and the captured `start` date. -/
def applyEvent (cb : Option ((ℕ × ℕ) → Except String Unit)) (s : DState) :
    Event → DState
  | Event.progress transferred total =>
    let s₁ := if s.bar.isSome then
        { s with barUpdates := s.barUpdates ++ [calculatedPercent transferred total] }
      else s
    (match cb with
     | some f =>
       { s₁ with callbackCalls :=
           s₁.callbackCalls ++ [((transferred, total), f (transferred, total))] }
     | none => s₁)
  | Event.transportError e =>
    let e' := enrich404 e
    let s₁ := { s with
      downloadStream := StreamState.destroyed (some (Err.transport e')),
      writeStream := StreamState.destroyed (some (Err.transport e')) }
    settleWith s₁ (Except.error (Err.transport e'))
  | Event.sinkError m =>
    let s₁ := { s with writeStream := StreamState.destroyed (some (Err.sink m)) }
    settleWith s₁ (Except.error (Err.sink m))
  | Event.sinkClose =>
    let s₁ := { s with
      writeStream :=
        (match s.writeStream with
         | StreamState.destroyed e => StreamState.destroyed e
         | _ => StreamState.closed),
      downloadStream :=
        (if s.writeStream = StreamState.opened then StreamState.closed
         else s.downloadStream) }
    settleWith s₁ (Except.ok ())
  | Event.timerFire _ =>
    if s.timeoutArmed && !s.timeoutCancelled && !s.timeoutFired then
      let s₁ := { s with timeoutFired := true }
      if !s.downloadCompleted then
        { s₁ with bar := some (ProgressBar.mk s.progressPercent 100 s.start) }
      else s₁
    else s

/-- One step of the event loop: the handlers run for the event, and if this
event fulfils the promise, the continuation of `await new Promise(...)` runs
immediately afterwards (as a microtask, before any later event):
`downloadCompleted = true; if (timeout) { clearTimeout(timeout); }`.
A rejection makes the `await` throw, so the continuation is skipped. -/
def stepEvent (cb : Option ((ℕ × ℕ) → Except String Unit)) (s : DState)
    (ev : Event) : DState :=
  let s' := applyEvent cb s ev
  if s.settled = none ∧ s'.settled = some (Except.ok ()) then
    { s' with downloadCompleted := true, timeoutCancelled := s'.timeoutArmed }
  else s'

/-- Processing of a whole event trace. -/
def runTrace (cb : Option ((ℕ × ℕ) → Except String Unit)) (s : DState)
    (trace : List Event) : DState :=
  trace.foldl (stepEvent cb) s

/-- The arguments of one `download` call, with the two recognised option
fields already in destructured form and the ambient environment variable:
`quiet` and `envNoProgress` are the truthiness of `options.quiet` and of
`process.env.ELECTRON_GET_NO_PROGRESS`, `getProgressCallback` is the
optional callback (modelled by the result it returns for each progress
event), and `startTime` is the value of `new Date()` when the timer block
runs. -/
structure Args where
  url : String
  targetFilePath : String
  quiet : Bool
  envNoProgress : Bool
  getProgressCallback : Option ((ℕ × ℕ) → Except String Unit)
  startTime : ℕ

/-- The synchronous part of `download` after a successful `fs.mkdirp`, in
source order: `fs.createWriteStream(targetFilePath)` is called, then the
timer is armed under the source's condition
`!quiet || !process.env.ELECTRON_GET_NO_PROGRESS` (capturing
`const start = new Date()`), then `got.stream(url, gotOptions)` opens the
transport stream inside the promise executor. -/
def setupState (a : Args) : DState :=
  let s₀ : DState := { initState with setupLog := [SetupAction.mkdirpDone] }
  let s₁ : DState := { s₀ with
    writeStream := StreamState.opened,
    writeCreates := s₀.writeCreates + 1,
    setupLog := s₀.setupLog ++ [SetupAction.createWriteStream] }
  let s₂ : DState :=
    if !a.quiet || !a.envNoProgress then
      { s₁ with
        timeoutArmed := true,
        start := a.startTime,
        setupLog := s₁.setupLog ++ [SetupAction.armTimer] }
    else s₁
  { s₂ with
    downloadStream := StreamState.opened,
    readCreates := s₂.readCreates + 1,
    setupLog := s₂.setupLog ++ [SetupAction.openTransport] }

/-- The `download` method.  `mkdirpResult` is the outcome of
`await fs.mkdirp(path.dirname(targetFilePath))`; when it throws, the method
rejects with that error before creating any stream.  Otherwise the
synchronous part runs (`setupState`) and the trace of events is processed.
The first component of the result is the settlement of the call (`none`
when the promise never settles); the second is the final state. -/
def download (a : Args) (mkdirpResult : Except String Unit)
    (trace : List Event) : Option (Except Err Unit) × DState :=
  match mkdirpResult with
  | Except.error m => (some (Except.error (Err.mkdirp m)), initState)
  | Except.ok _ =>
    let s := runTrace a.getProgressCallback (setupState a) trace
    (s.settled, s)

/-- `const { quiet, getProgressCallback, ...gotOptions } = options` — the
rest object keeps every property of `options` except the two recognised
fields, in property order.  The options object is modelled as an
association list from property names to values. -/
def destructureOptions {α : Type} (options : List (String × α)) :
    List (String × α) :=
  options.filter (fun p => !(p.1 == "quiet") && !(p.1 == "getProgressCallback"))

/-- The transfer-progress events of a trace, in order. -/
def progressEvents (trace : List Event) : List (ℕ × ℕ) :=
  trace.filterMap (fun ev =>
    match ev with
    | Event.progress transferred total => some (transferred, total)
    | _ => none)

/-- The callback invocations a single event gives rise to. -/
def newCalls (cb : Option ((ℕ × ℕ) → Except String Unit)) :
    Event → List ((ℕ × ℕ) × Except String Unit)
  | Event.progress transferred total =>
    (match cb with
     | some f => [((transferred, total), f (transferred, total))]
     | none => [])
  | _ => []

/-- All callback invocations of a trace, in order. -/
def traceCalls (cb : Option ((ℕ × ℕ) → Except String Unit))
    (trace : List Event) : List ((ℕ × ℕ) × Except String Unit) :=
  (trace.map (newCalls cb)).flatten

/-- Substring test on character lists: `pat` occurs inside the list. -/
def strContainsList (pat : List Char) : List Char → Bool
  | [] => pat.isEmpty
  | c :: rest => List.isPrefixOf pat (c :: rest) || strContainsList pat rest

/-- `hay` contains `pat` as a substring. -/
def strContains (hay pat : String) : Bool :=
  strContainsList pat.toList hay.toList

/-- The cleanup-invariant of claim C1: the cleanup flags are set iff the
promise has been fulfilled.  `downloadCompleted` and `timeoutCancelled` are
written exactly once, by the continuation of the `await`, which runs only
when the promise is fulfilled; a rejection makes the `await` throw past the
cleanup code. -/
def CleanupInv (s : DState) : Prop :=
  (s.timeoutCancelled = true → s.settled = some (Except.ok ())) ∧
  (s.downloadCompleted = true → s.settled = some (Except.ok ())) ∧
  (s.settled = some (Except.ok ()) →
    s.downloadCompleted = true ∧ s.timeoutCancelled = s.timeoutArmed)

/-- The stream-lifecycle invariant of claim C5: before settlement both
streams are open; at settlement the write stream is always closed, while
the transport stream is closed only when the settlement is a fulfilment or
a transport error — a sink error leaves it untouched. -/
def StreamInv (s : DState) : Prop :=
  (s.settled = none →
    s.writeStream = StreamState.opened ∧
    s.downloadStream = StreamState.opened) ∧
  (∀ x, s.settled = some x → s.writeStream.isClosed = true) ∧
  (s.settled = some (Except.ok ()) → s.downloadStream.isClosed = true) ∧
  (∀ e, s.settled = some (Except.error (Err.transport e)) →
    s.downloadStream.isClosed = true)

/-! ## Concrete fixtures -/

/-- A call with the indicator enabled (`quiet` unset, opt-out unset). -/
def argsLoud : Args :=
  Args.mk "https://example.com/a" "/tmp/out/file.zip" false false none 7

/-- A progress callback that always fails. -/
def cbFail : (ℕ × ℕ) → Except String Unit :=
  fun _ => Except.error "callback exploded"

/-- A call configured with the failing callback. -/
def argsWithCb : Args := Args.mk "u" "f" true true (some cbFail) 7

/-- A non-HTTP transport error. -/
def e500 : TransportError :=
  TransportError.mk false 500 "https://example.com/a" "socket hang up"

/-- An `HTTPError` with status 404 whose response URL (after a redirect)
differs from the requested URL. -/
def e404 : TransportError :=
  TransportError.mk true 404 "https://cdn.example.net/file.zip"
    "Response code 404 (Not Found)"

/-- An options object with both recognised fields and a transport field. -/
def optionsFixture : List (String × ℕ) :=
  [("quiet", 1), ("getProgressCallback", 2), ("timeout", 3)]

/-! ## Helper lemmas about the event handlers -/

/-- The handlers never write the fields that belong to the synchronous part
of `download` (and never write `progressPercent`, `downloadCompleted` or
`timeoutCancelled` either — the latter two are only written by the
continuation in `stepEvent`). -/
theorem applyEvent_fields (cb : Option ((ℕ × ℕ) → Except String Unit))
    (s : DState) (ev : Event) :
    (applyEvent cb s ev).progressPercent = s.progressPercent ∧
    (applyEvent cb s ev).timeoutArmed = s.timeoutArmed ∧
    (applyEvent cb s ev).timeoutCancelled = s.timeoutCancelled ∧
    (applyEvent cb s ev).downloadCompleted = s.downloadCompleted ∧
    (applyEvent cb s ev).start = s.start ∧
    (applyEvent cb s ev).writeCreates = s.writeCreates ∧
    (applyEvent cb s ev).readCreates = s.readCreates ∧
    (applyEvent cb s ev).setupLog = s.setupLog := by
  cases ev <;>
    simp only [applyEvent, settleWith] <;>
    (repeat' split) <;>
    (try cases cb) <;>
    simp

/-- Once the promise is settled, it stays settled with the same value. -/
theorem applyEvent_settled_mono (cb : Option ((ℕ × ℕ) → Except String Unit))
    (s : DState) (ev : Event) (x : Except Err Unit) (h : s.settled = some x) :
    (applyEvent cb s ev).settled = some x := by
  cases ev <;>
    simp only [applyEvent, settleWith] <;>
    (repeat' split) <;>
    (try cases cb) <;>
    simp_all

/-- `stepEvent` preserves the fields owned by the synchronous part of
`download`. -/
theorem stepEvent_fields (cb : Option ((ℕ × ℕ) → Except String Unit))
    (s : DState) (ev : Event) :
    (stepEvent cb s ev).progressPercent = s.progressPercent ∧
    (stepEvent cb s ev).timeoutArmed = s.timeoutArmed ∧
    (stepEvent cb s ev).start = s.start ∧
    (stepEvent cb s ev).writeCreates = s.writeCreates ∧
    (stepEvent cb s ev).readCreates = s.readCreates ∧
    (stepEvent cb s ev).setupLog = s.setupLog := by
  have h := applyEvent_fields cb s ev
  simp only [stepEvent]
  split <;> simp_all

/-- `stepEvent` keeps a settled promise settled with the same value. -/
theorem stepEvent_settled_mono (cb : Option ((ℕ × ℕ) → Except String Unit))
    (s : DState) (ev : Event) (x : Except Err Unit) (h : s.settled = some x) :
    (stepEvent cb s ev).settled = some x := by
  have h' := applyEvent_settled_mono cb s ev x h
  simp only [stepEvent]
  split <;> simp_all

/-- Invariant preservation along a trace. -/
theorem runTrace_inv (cb : Option ((ℕ × ℕ) → Except String Unit))
    (P : DState → Prop)
    (hstep : ∀ s ev, P s → P (stepEvent cb s ev)) :
    ∀ (trace : List Event) (s : DState), P s → P (runTrace cb s trace) := by
  intro trace
  induction trace with
  | nil => intro s h; exact h
  | cons ev rest ih =>
    intro s h
    exact ih (stepEvent cb s ev) (hstep s ev h)

/-- `runTrace` preserves the fields owned by the synchronous part of
`download`. -/
theorem runTrace_fields (cb : Option ((ℕ × ℕ) → Except String Unit))
    (trace : List Event) (s : DState) :
    (runTrace cb s trace).progressPercent = s.progressPercent ∧
    (runTrace cb s trace).timeoutArmed = s.timeoutArmed ∧
    (runTrace cb s trace).start = s.start ∧
    (runTrace cb s trace).writeCreates = s.writeCreates ∧
    (runTrace cb s trace).readCreates = s.readCreates ∧
    (runTrace cb s trace).setupLog = s.setupLog := by
  induction trace generalizing s with
  | nil => simp [runTrace]
  | cons ev rest ih =>
    have h := stepEvent_fields cb s ev
    have h' := ih (stepEvent cb s ev)
    simp only [runTrace, List.foldl_cons] at h' ⊢
    exact ⟨h'.1.trans h.1, (h'.2.1).trans h.2.1, (h'.2.2.1).trans h.2.2.1,
      (h'.2.2.2.1).trans h.2.2.2.1, (h'.2.2.2.2.1).trans h.2.2.2.2.1,
      (h'.2.2.2.2.2).trans h.2.2.2.2.2⟩

/-- `runTrace` keeps a settled promise settled with the same value. -/
theorem runTrace_settled_mono (cb : Option ((ℕ × ℕ) → Except String Unit))
    (trace : List Event) (s : DState) (x : Except Err Unit)
    (h : s.settled = some x) :
    (runTrace cb s trace).settled = some x := by
  induction trace generalizing s with
  | nil => exact h
  | cons ev rest ih =>
    exact ih (stepEvent cb s ev) (stepEvent_settled_mono cb s ev x h)

/-- Shape of the `downloadProgress` handler: it touches neither the streams,
nor the settlement, nor the timer, nor `bar`. -/
theorem applyEvent_progress (cb : Option ((ℕ × ℕ) → Except String Unit))
    (s : DState) (transferred total : ℕ) :
    (applyEvent cb s (Event.progress transferred total)).writeStream = s.writeStream ∧
    (applyEvent cb s (Event.progress transferred total)).downloadStream = s.downloadStream ∧
    (applyEvent cb s (Event.progress transferred total)).settled = s.settled ∧
    (applyEvent cb s (Event.progress transferred total)).bar = s.bar ∧
    (applyEvent cb s (Event.progress transferred total)).timeoutFired = s.timeoutFired := by
  simp only [applyEvent]
  (repeat' split) <;> simp

/-- Shape of the timer callback: it touches neither the streams nor the
settlement. -/
theorem applyEvent_timerFire (cb : Option ((ℕ × ℕ) → Except String Unit))
    (s : DState) (now : ℕ) :
    (applyEvent cb s (Event.timerFire now)).writeStream = s.writeStream ∧
    (applyEvent cb s (Event.timerFire now)).downloadStream = s.downloadStream ∧
    (applyEvent cb s (Event.timerFire now)).settled = s.settled := by
  simp only [applyEvent]
  (repeat' split) <;> simp

/-- Shape of the transport-stream `error` handler: both streams end up
destroyed with the enriched error, and the promise is rejected with it when
not already settled. -/
theorem applyEvent_transportError (cb : Option ((ℕ × ℕ) → Except String Unit))
    (s : DState) (e : TransportError) :
    (applyEvent cb s (Event.transportError e)).writeStream
      = StreamState.destroyed (some (Err.transport (enrich404 e))) ∧
    (applyEvent cb s (Event.transportError e)).downloadStream
      = StreamState.destroyed (some (Err.transport (enrich404 e))) ∧
    (applyEvent cb s (Event.transportError e)).settled
      = (if s.settled.isSome then s.settled
         else some (Except.error (Err.transport (enrich404 e)))) := by
  simp only [applyEvent, settleWith]
  split <;> simp_all

/-- Shape of the sink-stream `error` handler: the write stream is destroyed
(by its own error handling), the transport stream is untouched, and the
promise is rejected with the sink error when not already settled. -/
theorem applyEvent_sinkError (cb : Option ((ℕ × ℕ) → Except String Unit))
    (s : DState) (m : String) :
    (applyEvent cb s (Event.sinkError m)).writeStream
      = StreamState.destroyed (some (Err.sink m)) ∧
    (applyEvent cb s (Event.sinkError m)).downloadStream = s.downloadStream ∧
    (applyEvent cb s (Event.sinkError m)).settled
      = (if s.settled.isSome then s.settled
         else some (Except.error (Err.sink m))) := by
  simp only [applyEvent, settleWith]
  split <;> simp_all

/-- Shape of the sink-stream `close` handler: the write stream is closed
(keeping a destroyed state), the transport stream is closed when the close
is the natural completion of the pipe, and the promise is fulfilled when not
already settled. -/
theorem applyEvent_sinkClose (cb : Option ((ℕ × ℕ) → Except String Unit))
    (s : DState) :
    (applyEvent cb s Event.sinkClose).writeStream
      = (match s.writeStream with
         | StreamState.destroyed e => StreamState.destroyed e
         | _ => StreamState.closed) ∧
    (applyEvent cb s Event.sinkClose).downloadStream
      = (if s.writeStream = StreamState.opened then StreamState.closed
         else s.downloadStream) ∧
    (applyEvent cb s Event.sinkClose).settled
      = (if s.settled.isSome then s.settled else some (Except.ok ())) := by
  simp only [applyEvent, settleWith]
  (repeat' split) <;> simp_all

/-- `stepEvent` changes streams and settlement exactly as `applyEvent`
does (the continuation only writes `downloadCompleted` and
`timeoutCancelled`). -/
theorem stepEvent_streams (cb : Option ((ℕ × ℕ) → Except String Unit))
    (s : DState) (ev : Event) :
    (stepEvent cb s ev).writeStream = (applyEvent cb s ev).writeStream ∧
    (stepEvent cb s ev).downloadStream = (applyEvent cb s ev).downloadStream ∧
    (stepEvent cb s ev).settled = (applyEvent cb s ev).settled ∧
    (stepEvent cb s ev).bar = (applyEvent cb s ev).bar := by
  simp only [stepEvent]
  split <;> simp

/-- The state after the synchronous part of `download`: the promise is
pending, both streams are open and were each created exactly once, nothing
has completed or been cancelled, no callback has run, the timer is armed
exactly under the source's condition, and the setup log records the
execution order. -/
theorem setupState_fields (a : Args) :
    (setupState a).settled = none ∧
    (setupState a).writeStream = StreamState.opened ∧
    (setupState a).downloadStream = StreamState.opened ∧
    (setupState a).writeCreates = 1 ∧
    (setupState a).readCreates = 1 ∧
    (setupState a).callbackCalls = [] ∧
    (setupState a).downloadCompleted = false ∧
    (setupState a).timeoutCancelled = false ∧
    (setupState a).timeoutFired = false ∧
    (setupState a).progressPercent = none ∧
    (setupState a).bar = none ∧
    (setupState a).timeoutArmed = (!a.quiet || !a.envNoProgress) ∧
    (setupState a).setupLog =
      (if !a.quiet || !a.envNoProgress then
        [SetupAction.mkdirpDone, SetupAction.createWriteStream,
         SetupAction.armTimer, SetupAction.openTransport]
      else
        [SetupAction.mkdirpDone, SetupAction.createWriteStream,
         SetupAction.openTransport]) ∧
    (setupState a).start =
      (if !a.quiet || !a.envNoProgress then a.startTime else 0) := by
  simp only [setupState, initState]
  split <;> simp_all

/-! ## The cleanup invariant (claim C1)

`downloadCompleted` and `timeoutCancelled` are written exactly once, by the
continuation of the `await`, which runs only when the promise is fulfilled;
a rejection makes the `await` throw past the cleanup code. -/

theorem cleanupInv_step (cb : Option ((ℕ × ℕ) → Except String Unit))
    (s : DState) (ev : Event) (h : CleanupInv s) :
    CleanupInv (stepEvent cb s ev) := by
  obtain ⟨h1, h2, h3⟩ := h
  have hf := applyEvent_fields cb s ev
  by_cases hcond :
      (s.settled = none ∧ (applyEvent cb s ev).settled = some (Except.ok ()))
  · have hstep : stepEvent cb s ev =
        { applyEvent cb s ev with
          downloadCompleted := true,
          timeoutCancelled := (applyEvent cb s ev).timeoutArmed } := by
      simp [stepEvent, hcond]
    rw [hstep]
    refine ⟨fun _ => hcond.2, fun _ => hcond.2, fun _ => ⟨rfl, rfl⟩⟩
  · have hstep : stepEvent cb s ev = applyEvent cb s ev := by
      simp only [stepEvent]
      rw [if_neg hcond]
    rw [hstep]
    refine ⟨fun hcl => ?_, fun hdl => ?_, fun hok => ?_⟩
    · rw [hf.2.2.1] at hcl
      exact applyEvent_settled_mono cb s ev _ (h1 hcl)
    · rw [hf.2.2.2.1] at hdl
      exact applyEvent_settled_mono cb s ev _ (h2 hdl)
    · rcases hs : s.settled with _ | x
      · exact absurd ⟨hs, hok⟩ hcond
      · have hx := applyEvent_settled_mono cb s ev x hs
        rw [hx] at hok
        obtain ⟨hc', hl'⟩ := h3 (by rw [hs, Option.some_inj.mp hok])
        refine ⟨?_, ?_⟩
        · rw [hf.2.2.2.1]; exact hc'
        · rw [hf.2.2.1, hf.2.1]; exact hl'

theorem cleanupInv_run (cb : Option ((ℕ × ℕ) → Except String Unit))
    (trace : List Event) (s : DState) (h : CleanupInv s) :
    CleanupInv (runTrace cb s trace) :=
  runTrace_inv cb CleanupInv (fun s' ev hs => cleanupInv_step cb s' ev hs)
    trace s h

/-! ## The stream-lifecycle invariant (claim C5) -/

theorem streamInv_step (cb : Option ((ℕ × ℕ) → Except String Unit))
    (s : DState) (ev : Event) (h : StreamInv s) :
    StreamInv (stepEvent cb s ev) := by
  obtain ⟨g1, g2, g3, g4⟩ := h
  obtain ⟨ew, ed, es, -⟩ := stepEvent_streams cb s ev
  rw [StreamInv, ew, ed, es]
  cases ev with
  | progress transferred total =>
    obtain ⟨pw, pd, ps, -, -⟩ := applyEvent_progress cb s transferred total
    rw [pw, pd, ps]
    exact ⟨g1, g2, g3, g4⟩
  | timerFire now =>
    obtain ⟨pw, pd, ps⟩ := applyEvent_timerFire cb s now
    rw [pw, pd, ps]
    exact ⟨g1, g2, g3, g4⟩
  | transportError e =>
    obtain ⟨pw, pd, ps⟩ := applyEvent_transportError cb s e
    rw [pw, pd, ps]
    refine ⟨fun hn => ?_, fun x _ => ?_, fun _ => ?_, fun e' _ => ?_⟩
    · by_cases hs : s.settled.isSome <;> simp_all
    · simp [StreamState.isClosed]
    · simp [StreamState.isClosed]
    · simp [StreamState.isClosed]
  | sinkError m =>
    obtain ⟨pw, pd, ps⟩ := applyEvent_sinkError cb s m
    rw [pw, pd, ps]
    refine ⟨fun hn => ?_, fun x _ => ?_, fun hok => ?_, fun e' he' => ?_⟩
    · by_cases hs : s.settled.isSome <;> simp_all
    · simp [StreamState.isClosed]
    · by_cases hs : s.settled.isSome
      · rw [if_pos hs] at hok
        exact g3 hok
      · rw [if_neg hs] at hok
        simp at hok
    · by_cases hs : s.settled.isSome
      · rw [if_pos hs] at he'
        exact g4 e' he'
      · rw [if_neg hs] at he'
        simp at he'
  | sinkClose =>
    obtain ⟨pw, pd, ps⟩ := applyEvent_sinkClose cb s
    rw [pw, pd, ps]
    refine ⟨fun hn => ?_, fun x _ => ?_, fun hok => ?_, fun e' he' => ?_⟩
    · by_cases hs : s.settled.isSome <;> simp_all
    · cases s.writeStream <;> simp [StreamState.isClosed]
    · by_cases hw : s.writeStream = StreamState.opened
      · simp [hw, StreamState.isClosed]
      · rw [if_neg hw]
        by_cases hs : s.settled.isSome
        · rw [if_pos hs] at hok
          exact g3 hok
        · exact absurd ((g1 (Option.not_isSome_iff_eq_none.mp hs)).1) hw
    · by_cases hw : s.writeStream = StreamState.opened
      · simp [hw, StreamState.isClosed]
      · rw [if_neg hw]
        by_cases hs : s.settled.isSome
        · rw [if_pos hs] at he'
          exact g4 e' he'
        · rw [if_neg hs] at he'
          simp at he'

theorem streamInv_run (cb : Option ((ℕ × ℕ) → Except String Unit))
    (trace : List Event) (s : DState) (h : StreamInv s) :
    StreamInv (runTrace cb s trace) :=
  runTrace_inv cb StreamInv (fun s' ev hs => streamInv_step cb s' ev hs)
    trace s h

/-! ## Independence of the outcome from the progress callback (claim C3)

The `downloadProgress` listener is an `async` function; the promise it
returns is ignored by the event emitter, so the result of
`getProgressCallback` can influence nothing but the ghost invocation log. -/

theorem applyEvent_cc (cb : Option ((ℕ × ℕ) → Except String Unit))
    (s : DState) (c : List ((ℕ × ℕ) × Except String Unit)) (ev : Event) :
    applyEvent cb { s with callbackCalls := c } ev
      = { applyEvent none s ev with callbackCalls := c ++ newCalls cb ev } := by
  cases ev <;>
    simp only [applyEvent, newCalls, settleWith] <;>
    (repeat' split) <;>
    simp_all

theorem stepEvent_cc (cb : Option ((ℕ × ℕ) → Except String Unit))
    (s : DState) (c : List ((ℕ × ℕ) × Except String Unit)) (ev : Event) :
    stepEvent cb { s with callbackCalls := c } ev
      = { stepEvent none s ev with callbackCalls := c ++ newCalls cb ev } := by
  simp only [stepEvent, applyEvent_cc]
  split <;> simp

theorem runTrace_cc (cb : Option ((ℕ × ℕ) → Except String Unit))
    (trace : List Event) (s : DState)
    (c : List ((ℕ × ℕ) × Except String Unit)) :
    runTrace cb { s with callbackCalls := c } trace
      = { runTrace none s trace with
          callbackCalls := c ++ traceCalls cb trace } := by
  induction trace generalizing s c with
  | nil => simp [runTrace, traceCalls]
  | cons ev rest ih =>
    simp only [runTrace, List.foldl_cons] at ih ⊢
    rw [stepEvent_cc, ih]
    simp [traceCalls]

/-- `runTrace_cc` specialised to a state with an empty invocation log. -/
theorem runTrace_cc_nil (cb : Option ((ℕ × ℕ) → Except String Unit))
    (trace : List Event) (s : DState) (h : s.callbackCalls = []) :
    runTrace cb s trace
      = { runTrace none s trace with callbackCalls := traceCalls cb trace } := by
  obtain ⟨d1, d2, d3, d4, d5, d6, d7, d8, d9, d10, d11, d12, d13, d14, d15⟩ := s
  have h' : d12 = [] := h
  subst h'
  exact runTrace_cc cb trace
    (DState.mk d1 d2 d3 d4 d5 d6 d7 d8 d9 d10 d11 [] d13 d14 d15) []

/-- The invocation log of a trace, for a configured callback: one invocation
per transfer-progress event, in event order, carrying the callback's
result. -/
theorem traceCalls_some (f : (ℕ × ℕ) → Except String Unit)
    (trace : List Event) :
    traceCalls (some f) trace
      = (progressEvents trace).map (fun p => (p, f p)) := by
  induction trace with
  | nil => simp [traceCalls, progressEvents]
  | cons ev rest ih =>
    cases ev <;> simp_all [traceCalls, progressEvents, newCalls]

/-! ## Arithmetic, substring and destructuring helpers -/

/-- For a nonzero total, `calculatedPercent` is exactly `Math.round` of the
percent: the natural-number computation agrees with Mathlib's `round` of the
exact rational `transferred / total * 100`. -/
theorem calculatedPercent_eq_round (transferred total : ℕ) (h : total ≠ 0) :
    calculatedPercent transferred total
      = JSNum.num (round ((transferred : ℚ) / total * 100)).toNat := by
  have hr : round ((transferred : ℚ) / total * 100)
      = (((200 * transferred + total) / (2 * total) : ℕ) : ℤ) := by
    rw [round_eq]
    have hc : ((transferred : ℚ) / total * 100 + 1 / 2)
        = ((200 * transferred + total : ℕ) : ℚ) / ((2 * total : ℕ) : ℚ) := by
      have h' : (total : ℚ) ≠ 0 := Nat.cast_ne_zero.mpr h
      push_cast
      field_simp
      ring
    rw [hc, Rat.floor_natCast_div_natCast]
    exact (Int.natCast_div _ _).symm
  rw [calculatedPercent, if_neg h, hr, Int.toNat_natCast]

/-- A list contains any of its suffixes as a sublist of consecutive
elements. -/
theorem strContainsList_append (pat : List Char) :
    ∀ pre : List Char, strContainsList pat (pre ++ pat) = true := by
  intro pre
  induction pre with
  | nil =>
    cases pat with
    | nil => rfl
    | cons c rest =>
      simp [strContainsList, List.isPrefixOf_iff_prefix]
  | cons c pre ih =>
    simp [strContainsList, ih]

/-- A string contains its own suffix. -/
theorem strContains_append (m u : String) : strContains (m ++ u) u = true := by
  rw [strContains]
  have h : (m ++ u).toList = m.toList ++ u.toList := by simp
  rw [h]
  exact strContainsList_append u.toList m.toList

/-- The rest object of the destructuring holds no `quiet` property. -/
theorem destructureOptions_quiet {α : Type} (options : List (String × α)) :
    (destructureOptions options).lookup "quiet" = none := by
  induction options with
  | nil => rfl
  | cons p rest ih =>
    by_cases h : p.1 = "quiet"
    · simp [destructureOptions, h] at ih ⊢
      exact ih
    · by_cases h2 : p.1 = "getProgressCallback"
      · simp [destructureOptions, h2] at ih ⊢
        exact ih
      · simp [destructureOptions, h, h2] at ih ⊢
        exact ⟨fun hq => absurd hq.symm h, ih⟩

/-- The rest object of the destructuring holds no `getProgressCallback`
property. -/
theorem destructureOptions_cb {α : Type} (options : List (String × α)) :
    (destructureOptions options).lookup "getProgressCallback" = none := by
  induction options with
  | nil => rfl
  | cons p rest ih =>
    by_cases h : p.1 = "quiet"
    · simp [destructureOptions, h] at ih ⊢
      exact ih
    · by_cases h2 : p.1 = "getProgressCallback"
      · simp [destructureOptions, h2] at ih ⊢
        exact ih
      · simp [destructureOptions, h, h2] at ih ⊢
        exact ⟨fun hq => absurd hq.symm h2, ih⟩

/-- Every other property is forwarded with its original value (first match,
preserving order). -/
theorem destructureOptions_other {α : Type} (options : List (String × α))
    (k : String) (h1 : k ≠ "quiet") (h2 : k ≠ "getProgressCallback") :
    (destructureOptions options).lookup k = options.lookup k := by
  induction options with
  | nil => rfl
  | cons p rest ih =>
    by_cases hk : k = p.1
    · have hp : (!(p.1 == "quiet") && !(p.1 == "getProgressCallback")) = true := by
        rw [← hk]; simp [h1, h2]
      simp [destructureOptions, List.filter_cons, hp, List.lookup, hk]
    · cases hp : (!(p.1 == "quiet") && !(p.1 == "getProgressCallback")) with
      | true =>
        simp only [destructureOptions, List.filter_cons, hp] at ih ⊢
        simp [List.lookup, hk, ih]
      | false =>
        simp only [destructureOptions, List.filter_cons, hp] at ih ⊢
        have hkb : (k == p.1) = false := beq_eq_false_iff_ne.mpr hk
        simp [List.lookup, hkb, ih]

/-! ## The claims -/

/-- C1, counterexample: a download that settles with a transport failure
leaves the armed activation timer uncancelled, and a late firing of that
timer still creates a progress indicator after the call has settled —
contradicting the claim that the timer is cancelled by settlement time
whether the call succeeds or fails. -/
theorem c1_counterexample :
    (download argsLoud (Except.ok ()) [Event.transportError e500]).1
      = some (Except.error (Err.transport e500)) ∧
    (download argsLoud (Except.ok ()) [Event.transportError e500]).2.timeoutArmed = true ∧
    (download argsLoud (Except.ok ()) [Event.transportError e500]).2.timeoutCancelled = false ∧
    (applyEvent none
        ((download argsLoud (Except.ok ()) [Event.transportError e500]).2)
        (Event.timerFire 99)).bar
      = some (ProgressBar.mk none 100 7) :=
  ⟨rfl, rfl, rfl, rfl⟩

/-- C1, amended: the transfer is marked complete and the armed activation
timer is cancelled by the time the call settles **successfully**; when the
call settles with a failure, the `await` throws past the cleanup code, so
the transfer is not marked complete and the timer is not cancelled. -/
theorem c1_amended (a : Args) (mkdirpResult : Except String Unit)
    (trace : List Event) :
    ((download a mkdirpResult trace).1 = some (Except.ok ()) →
      (download a mkdirpResult trace).2.downloadCompleted = true ∧
      (download a mkdirpResult trace).2.timeoutCancelled
        = (download a mkdirpResult trace).2.timeoutArmed) ∧
    (∀ e, (download a mkdirpResult trace).1 = some (Except.error e) →
      (download a mkdirpResult trace).2.downloadCompleted = false ∧
      (download a mkdirpResult trace).2.timeoutCancelled = false) := by
  cases mkdirpResult with
  | error m => simp [download, initState]
  | ok u =>
    obtain ⟨h1, h2, h3, h4, h5, h6, h7, h8, h9, h10, h11, h12, h13, h14⟩ :=
      setupState_fields a
    have hinv : CleanupInv (setupState a) := by
      refine ⟨fun hc => ?_, fun hd => ?_, fun hok => ?_⟩
      · rw [h8] at hc; exact absurd hc (by simp)
      · rw [h7] at hd; exact absurd hd (by simp)
      · rw [h1] at hok; exact absurd hok (by simp)
    obtain ⟨k1, k2, k3⟩ :=
      cleanupInv_run a.getProgressCallback trace (setupState a) hinv
    simp only [download]
    refine ⟨fun hok => k3 hok, fun e herr => ⟨?_, ?_⟩⟩
    · cases hcd : (runTrace a.getProgressCallback (setupState a)
          trace).downloadCompleted
      · rfl
      · exact absurd (k2 hcd) (by rw [herr]; simp)
    · cases hcc : (runTrace a.getProgressCallback (setupState a)
          trace).timeoutCancelled
      · rfl
      · exact absurd (k1 hcc) (by rw [herr]; simp)

/-- C1, witness for the amended statement: a fulfilled call has the cleanup
applied, a rejected call does not. -/
theorem c1_amended_witness :
    ((download argsLoud (Except.ok ()) [Event.sinkClose]).2.downloadCompleted = true ∧
     (download argsLoud (Except.ok ()) [Event.sinkClose]).2.timeoutCancelled
       = (download argsLoud (Except.ok ()) [Event.sinkClose]).2.timeoutArmed) ∧
    ((download argsLoud (Except.ok ()) [Event.transportError e500]).2.downloadCompleted = false ∧
     (download argsLoud (Except.ok ()) [Event.transportError e500]).2.timeoutCancelled = false) :=
  ⟨(c1_amended argsLoud (Except.ok ()) [Event.sinkClose]).1 rfl,
   (c1_amended argsLoud (Except.ok ()) [Event.transportError e500]).2
     (Err.transport e500) rfl⟩

/-- C2: the source arms the activation timer under
`!quiet || !process.env.ELECTRON_GET_NO_PROGRESS`.  With `quiet` set and
the environment opt-out unset the timer is still armed, and with the
opt-out set and `quiet` unset it is also armed; only setting **both**
suppresses it — contradicting the claim (and the option's own
documentation) that either alone suppresses the indicator. -/
theorem c2_bug :
    (∀ (a : Args) (trace : List Event),
      (download a (Except.ok ()) trace).2.timeoutArmed
        = (!a.quiet || !a.envNoProgress)) ∧
    (download (Args.mk "u" "f" true false none 7) (Except.ok ()) []).2.timeoutArmed = true ∧
    (download (Args.mk "u" "f" false true none 7) (Except.ok ()) []).2.timeoutArmed = true ∧
    (download (Args.mk "u" "f" true true none 7) (Except.ok ()) []).2.timeoutArmed = false := by
  refine ⟨fun a trace => ?_, rfl, rfl, rfl⟩
  simp only [download]
  exact ((runTrace_fields a.getProgressCallback trace (setupState a)).2.1).trans
    (setupState_fields a).2.2.2.2.2.2.2.2.2.2.2.1

/-- C3, counterexample: a failing progress callback does not fail the
download — the call still fulfils and the sink stream is closed normally,
not destroyed — contradicting the claim that the call fails with the
callback's error. -/
theorem c3_counterexample :
    (download argsWithCb (Except.ok ())
        [Event.progress 10 100, Event.sinkClose]).1 = some (Except.ok ()) ∧
    (download argsWithCb (Except.ok ())
        [Event.progress 10 100, Event.sinkClose]).2.writeStream
      = StreamState.closed ∧
    (download argsWithCb (Except.ok ())
        [Event.progress 10 100, Event.sinkClose]).2.callbackCalls
      = [((10, 100), Except.error "callback exploded")] :=
  ⟨rfl, rfl, rfl⟩

/-- C3, amended: the configured callback is invoked once per
transfer-progress event, in event order, but the listener that awaits it is
an `async` event handler whose rejection is unhandled — the settlement and
the sink stream of the call are independent of the callback's results. -/
theorem c3_amended (a : Args) (f : (ℕ × ℕ) → Except String Unit)
    (mkdirpResult : Except String Unit) (trace : List Event) :
    ((download { a with getProgressCallback := some f } mkdirpResult trace).1
      = (download { a with getProgressCallback := none } mkdirpResult trace).1) ∧
    ((download { a with getProgressCallback := some f } mkdirpResult trace).2.writeStream
      = (download { a with getProgressCallback := none } mkdirpResult trace).2.writeStream) ∧
    ((download { a with getProgressCallback := some f } (Except.ok ()) trace).2.callbackCalls
      = (progressEvents trace).map (fun p => (p, f p))) := by
  have hsetf : setupState { a with getProgressCallback := some f }
      = setupState a := rfl
  have hsetn : setupState { a with getProgressCallback := none }
      = setupState a := rfl
  have hnil : (setupState a).callbackCalls = [] :=
    (setupState_fields a).2.2.2.2.2.1
  have key := runTrace_cc_nil (some f) trace (setupState a) hnil
  have keyn := runTrace_cc_nil none trace (setupState a) hnil
  have hcalls : (download { a with getProgressCallback := some f }
      (Except.ok ()) trace).2.callbackCalls
      = (progressEvents trace).map (fun p => (p, f p)) := by
    simp only [download, hsetf]
    rw [key]
    simp [traceCalls_some]
  cases mkdirpResult with
  | error m => exact ⟨rfl, rfl, hcalls⟩
  | ok u =>
    refine ⟨?_, ?_, hcalls⟩
    · simp only [download, hsetf, hsetn]
      rw [key, keyn]
    · simp only [download, hsetf, hsetn]
      rw [key, keyn]

/-- C4: when the timer fires after a transfer-progress event of 50 percent
was observed, the indicator is seeded with `curr = undefined` — the source
declares `let progressPercent: number;` and reads it in the `ProgressBar`
options, but never assigns it — not with the most recently observed
percent, and not with 0.  The `start` field does receive the date captured
when the timer was armed (7), not the firing time (99). -/
theorem c4_bug :
    calculatedPercent 50 100 = JSNum.num 50 ∧
    (download argsLoud (Except.ok ())
        [Event.progress 50 100, Event.timerFire 99]).2.progressPercent = none ∧
    (download argsLoud (Except.ok ())
        [Event.progress 50 100, Event.timerFire 99]).2.bar
      = some (ProgressBar.mk none 100 7) :=
  ⟨rfl, rfl, rfl⟩

/-- C5, counterexample: when the call settles because the sink stream
errored, the transport read stream is left open — the downloader's own
handlers close it on no path, and `pipe` only unpipes on a destination
error — contradicting the claim that both streams are closed before the
call returns on every exit path. -/
theorem c5_counterexample :
    (download argsLoud (Except.ok ()) [Event.sinkError "EACCES"]).1
      = some (Except.error (Err.sink "EACCES")) ∧
    (download argsLoud (Except.ok ()) [Event.sinkError "EACCES"]).2.downloadStream
      = StreamState.opened :=
  ⟨rfl, rfl⟩

/-- C5, amended: at most one write stream and at most one read stream are
created per call; whenever the call settles the write stream is closed
(destroyed or completed), and the read stream is closed when the settlement
is a fulfilment or a transport error — but not when it is a sink-stream
error. -/
theorem c5_amended (a : Args) (mkdirpResult : Except String Unit)
    (trace : List Event) :
    (download a mkdirpResult trace).2.writeCreates ≤ 1 ∧
    (download a mkdirpResult trace).2.readCreates ≤ 1 ∧
    ((download a mkdirpResult trace).1.isSome = true →
      (download a mkdirpResult trace).2.writeStream = StreamState.notCreated ∨
      (download a mkdirpResult trace).2.writeStream.isClosed = true) ∧
    ((download a mkdirpResult trace).1 = some (Except.ok ()) →
      (download a mkdirpResult trace).2.downloadStream.isClosed = true) ∧
    (∀ e, (download a mkdirpResult trace).1
        = some (Except.error (Err.transport e)) →
      (download a mkdirpResult trace).2.downloadStream.isClosed = true) := by
  cases mkdirpResult with
  | error m => simp [download, initState]
  | ok u =>
    obtain ⟨h1, h2, h3, h4, h5, h6, h7, h8, h9, h10, h11, h12, h13, h14⟩ :=
      setupState_fields a
    have hinv : StreamInv (setupState a) := by
      refine ⟨fun _ => ⟨h2, h3⟩, fun x hx => ?_, fun hok => ?_, fun e he => ?_⟩
      · rw [h1] at hx; exact absurd hx (by simp)
      · rw [h1] at hok; exact absurd hok (by simp)
      · rw [h1] at he; exact absurd he (by simp)
    obtain ⟨g1, g2, g3, g4⟩ :=
      streamInv_run a.getProgressCallback trace (setupState a) hinv
    obtain ⟨-, -, -, hw, hr, -⟩ :=
      runTrace_fields a.getProgressCallback trace (setupState a)
    simp only [download]
    refine ⟨?_, ?_, fun hsome => ?_, g3, g4⟩
    · rw [hw, h4]
    · rw [hr, h5]
    · rcases ho : (runTrace a.getProgressCallback (setupState a)
          trace).settled with _ | x
      · rw [ho] at hsome; exact absurd hsome (by simp)
      · exact Or.inr (g2 x ho)

/-- C5, witness for the amended statement: a fulfilled call and a
transport-error call with both streams closed. -/
theorem c5_amended_witness :
    ((download argsLoud (Except.ok ()) [Event.sinkClose]).2.writeStream
        = StreamState.notCreated ∨
      (download argsLoud (Except.ok ()) [Event.sinkClose]).2.writeStream.isClosed
        = true) ∧
    (download argsLoud (Except.ok ()) [Event.sinkClose]).2.downloadStream.isClosed
      = true ∧
    (download argsLoud (Except.ok ())
        [Event.transportError e500]).2.downloadStream.isClosed = true :=
  ⟨(c5_amended argsLoud (Except.ok ()) [Event.sinkClose]).2.2.1 rfl,
   (c5_amended argsLoud (Except.ok ()) [Event.sinkClose]).2.2.2.1 rfl,
   (c5_amended argsLoud (Except.ok ()) [Event.transportError e500]).2.2.2.2
     e500 rfl⟩

/-- C6, counterexample: the 404 enrichment appends `error.response.url`, the
resolved URL of the response.  When the transport followed a redirect the
response URL differs from the requested URL, and the rejection's message
does not contain the requested URL — contradicting the claim as stated. -/
theorem c6_counterexample :
    (download argsLoud (Except.ok ()) [Event.transportError e404]).1
      = some (Except.error (Err.transport (TransportError.mk true 404
          "https://cdn.example.net/file.zip"
          "Response code 404 (Not Found) for https://cdn.example.net/file.zip"))) ∧
    strContains
        "Response code 404 (Not Found) for https://cdn.example.net/file.zip"
        argsLoud.url
      = false :=
  ⟨rfl, by decide⟩

/-- C6, amended: a transport error destroys the sink stream with the
(possibly 404-enriched) error and rejects the pending promise with it; a
404 `HTTPError`'s message gains the **response** URL (the redirect-resolved
URL, which equals the requested URL only when no redirect occurred), and a
download whose trace starts with a transport error rejects with the
enriched error. -/
theorem c6_amended (cb : Option ((ℕ × ℕ) → Except String Unit))
    (s : DState) (e : TransportError) :
    ((applyEvent cb s (Event.transportError e)).writeStream
      = StreamState.destroyed (some (Err.transport (enrich404 e)))) ∧
    (s.settled = none →
      (applyEvent cb s (Event.transportError e)).settled
        = some (Except.error (Err.transport (enrich404 e)))) ∧
    (e.isHTTPError = true → e.statusCode = 404 →
      strContains (enrich404 e).message e.responseUrl = true) ∧
    (∀ (a : Args) (rest : List Event),
      (download a (Except.ok ()) (Event.transportError e :: rest)).1
        = some (Except.error (Err.transport (enrich404 e)))) := by
  obtain ⟨pw, pd, ps⟩ := applyEvent_transportError cb s e
  refine ⟨pw, fun hn => ?_, fun hh h4 => ?_, fun a rest => ?_⟩
  · rw [ps, hn]; simp
  · rw [enrich404, if_pos (by rw [hh, h4]; rfl)]
    have happ : e.message ++ " for " ++ e.responseUrl
        = (e.message ++ " for ") ++ e.responseUrl := by
      rw [String.append_assoc]
    simp only [happ]
    exact strContains_append (e.message ++ " for ") e.responseUrl
  · simp only [download, runTrace, List.foldl_cons]
    have hf := setupState_fields a
    have hs := (applyEvent_transportError a.getProgressCallback
      (setupState a) e).2.2
    rw [hf.1] at hs
    simp at hs
    have hstep : (stepEvent a.getProgressCallback (setupState a)
        (Event.transportError e)).settled
        = some (Except.error (Err.transport (enrich404 e))) := by
      obtain ⟨-, -, hs3, -⟩ := stepEvent_streams a.getProgressCallback
        (setupState a) (Event.transportError e)
      rw [hs3, hs]
    exact runTrace_settled_mono a.getProgressCallback rest _ _ hstep

/-- C6, witness for the amended statement, at a pending state and a 404
error. -/
theorem c6_amended_witness :
    ((applyEvent none initState (Event.transportError e404)).writeStream
      = StreamState.destroyed (some (Err.transport (enrich404 e404)))) ∧
    ((applyEvent none initState (Event.transportError e404)).settled
      = some (Except.error (Err.transport (enrich404 e404)))) ∧
    strContains (enrich404 e404).message e404.responseUrl = true ∧
    (download argsLoud (Except.ok ()) [Event.transportError e404]).1
      = some (Except.error (Err.transport (enrich404 e404))) := by
  have h := c6_amended none initState e404
  exact ⟨h.1, h.2.1 rfl, h.2.2.1 rfl rfl, h.2.2.2 argsLoud []⟩

/-- C7, counterexample: for a progress event with `totalBytes = 0` and a
nonzero transferred count, the computed percent is `Infinity`
(`1 / 0 = Infinity` in JavaScript), not a not-a-number value as the claim
states. -/
theorem c7_counterexample :
    calculatedPercent 1 0 = JSNum.inf ∧ JSNum.inf ≠ JSNum.nan :=
  ⟨rfl, by decide⟩

/-- C7, amended: for a progress event with `totalBytes = 0` the percent
computation does not throw — it yields `NaN` when `transferredBytes = 0`
and `Infinity` otherwise — and processing of the event continues: the
settlement and the streams are untouched and a configured callback is still
invoked with the event. -/
theorem c7_amended (transferred : ℕ) (f : (ℕ × ℕ) → Except String Unit)
    (s : DState) :
    (calculatedPercent transferred 0
      = if transferred = 0 then JSNum.nan else JSNum.inf) ∧
    ((applyEvent (some f) s (Event.progress transferred 0)).settled
      = s.settled) ∧
    ((applyEvent (some f) s (Event.progress transferred 0)).writeStream
      = s.writeStream) ∧
    ((applyEvent (some f) s (Event.progress transferred 0)).callbackCalls
      = s.callbackCalls ++ [((transferred, 0), f (transferred, 0))]) := by
  obtain ⟨qw, qd, qs, -, -⟩ := applyEvent_progress (some f) s transferred 0
  have hcc : applyEvent (some f) s (Event.progress transferred 0)
      = { applyEvent none s (Event.progress transferred 0) with
          callbackCalls := s.callbackCalls
            ++ newCalls (some f) (Event.progress transferred 0) } :=
    applyEvent_cc (some f) s s.callbackCalls (Event.progress transferred 0)
  refine ⟨?_, qs, qw, ?_⟩
  · by_cases h : transferred = 0 <;> simp [calculatedPercent, h]
  · rw [hcc]
    simp [newCalls]

/-- C8: when `fs.mkdirp` for the parent directory of the destination fails,
`download` rejects with that filesystem error before creating the write
stream and before opening any transport stream. -/
theorem c8_mkdirp (a : Args) (m : String) (trace : List Event) :
    (download a (Except.error m) trace).1
      = some (Except.error (Err.mkdirp m)) ∧
    (download a (Except.error m) trace).2.writeStream
      = StreamState.notCreated ∧
    (download a (Except.error m) trace).2.downloadStream
      = StreamState.notCreated ∧
    (download a (Except.error m) trace).2.readCreates = 0 ∧
    (download a (Except.error m) trace).2.writeCreates = 0 ∧
    (download a (Except.error m) trace).2.setupLog = [] :=
  ⟨rfl, rfl, rfl, rfl, rfl, rfl⟩

/-- C9: the options object forwarded to `got.stream` is the caller's options
with exactly the two recognised fields removed: `quiet` and
`getProgressCallback` are absent from the rest object, and every other
property keeps its original value. -/
theorem c9_destructure {α : Type} (options : List (String × α)) (k : String)
    (h1 : k ≠ "quiet") (h2 : k ≠ "getProgressCallback") :
    (destructureOptions options).lookup "quiet" = none ∧
    (destructureOptions options).lookup "getProgressCallback" = none ∧
    (destructureOptions options).lookup k = options.lookup k :=
  ⟨destructureOptions_quiet options, destructureOptions_cb options,
   destructureOptions_other options k h1 h2⟩

/-- C9, witness: the fixture options object keeps `timeout` and loses the
two recognised fields. -/
theorem c9_destructure_witness :
    (destructureOptions optionsFixture).lookup "quiet" = none ∧
    (destructureOptions optionsFixture).lookup "getProgressCallback" = none ∧
    (destructureOptions optionsFixture).lookup "timeout"
      = optionsFixture.lookup "timeout" :=
  c9_destructure optionsFixture "timeout" (by decide) (by decide)

/-- C10: on every call whose `fs.mkdirp` succeeds, the write stream is
created exactly once and strictly before the transport stream is opened
(exactly once), whatever events follow. -/
theorem c10_order (a : Args) (trace : List Event) :
    (download a (Except.ok ()) trace).2.writeCreates = 1 ∧
    (download a (Except.ok ()) trace).2.readCreates = 1 ∧
    SetupAction.createWriteStream ∈ (download a (Except.ok ()) trace).2.setupLog ∧
    SetupAction.openTransport ∈ (download a (Except.ok ()) trace).2.setupLog ∧
    (download a (Except.ok ()) trace).2.setupLog.indexOf
        SetupAction.createWriteStream
      < (download a (Except.ok ()) trace).2.setupLog.indexOf
        SetupAction.openTransport := by
  obtain ⟨-, -, -, hw, hr, hl⟩ :=
    runTrace_fields a.getProgressCallback trace (setupState a)
  obtain ⟨h1, h2, h3, h4, h5, h6, h7, h8, h9, h10, h11, h12, h13, h14⟩ :=
    setupState_fields a
  simp only [download]
  rw [hw, hr, hl, h4, h5, h13]
  by_cases hc : (!a.quiet || !a.envNoProgress) = true
  · rw [if_pos hc]
    refine ⟨rfl, rfl, by decide, by decide, by decide⟩
  · rw [if_neg hc]
    refine ⟨rfl, rfl, by decide, by decide, by decide⟩

end GotDownloader
